import Mathlib

/-!
Hysteria2 client (sing-quic): a shallow embedding.

The definitions below follow `hysteria2/salamander.go` and `hysteria2/client.go`.
Bytes are natural numbers, buffers are lists of bytes, Go errors are their texts
(`none` is the nil error).  Results of calls into collaborators that live outside
these files (the wrapped packet socket, the QUIC stream, the dialer, the random
source) are explicit inputs of the embedded functions.
-/

namespace Hysteria2

/-- Error values, represented by their text. -/
abbrev Err := String

/-- Network addresses (net.Addr, M.Socksaddr), represented by their String() rendering. -/
abbrev Socksaddr := String

/-! ## salamander.go -/

/-- Salt length: const salamanderSaltLen = 8. -/
def salamanderSaltLen : Nat := 8

/-- Digest length blake2b.Size256. -/
def Size256 : Nat := 32

/-- A 32-byte digest, the array type returned by blake2b.Sum256. -/
abbrev Digest := Fin Size256 → Nat

/-- The hash blake2b.Sum256 is a library function; the embedding takes it as a parameter. -/
abbrev Sum256 := List Nat → Digest

/-- The expression key[index%blake2b.Size256]. -/
def keyAt (key : Digest) (index : Nat) : Nat :=
  key ⟨index % Size256, Nat.mod_lt index (by decide)⟩

/-- Receiver state of SalamanderPacketConn: the password (the wrapped socket is external). -/
structure SalamanderPacketConn where
  password : List Nat
deriving Repr, DecidableEq

/-- Outcome of the wrapped PacketConn.ReadFrom(p): the buffer after the call, the byte
count, the source address and the error. -/
structure RawRead where
  p : List Nat
  n : Nat
  addr : Socksaddr
  err : Option Err
deriving Repr, DecidableEq

/-- The in-place loop of ReadFrom,
`for index, c := range p[salamanderSaltLen:n] { p[index] = c ^ key[index%blake2b.Size256] }`:
count is the number of iterations still to run, index the loop variable; each
iteration reads element index of the slice p[salamanderSaltLen:n] from the live
buffer and stores into p[index]. -/
def readLoop (key : Digest) : Nat → Nat → List Nat → List Nat
  | 0, _, p => p
  | count + 1, index, p =>
    readLoop key count (index + 1)
      (p.set index ((p.getD (salamanderSaltLen + index) 0) ^^^ keyAt key index))

/-- SalamanderPacketConn.ReadFrom, applied to the outcome raw of the wrapped ReadFrom.
The result none stands for the run-time panic of slicing p[salamanderSaltLen:n] beyond
the buffer (buffers are taken with capacity equal to their length). -/
def SalamanderPacketConn.ReadFrom (sum256 : Sum256) (s : SalamanderPacketConn)
    (raw : RawRead) : Option RawRead :=
  if raw.err ≠ none then some raw
  else if raw.n ≤ salamanderSaltLen then some raw
  else if raw.p.length < raw.n then none
  else
    let key := sum256 (s.password ++ raw.p.take salamanderSaltLen)
    some { p := readLoop key (raw.n - salamanderSaltLen) 0 raw.p
           n := raw.n - salamanderSaltLen
           addr := raw.addr
           err := none }

/-- The loop of WriteTo,
`for index, c := range p { buffer.WriteByte(c ^ key[index%blake2b.Size256]) }`:
the buffer was allocated with len(p) + salamanderSaltLen bytes, which the salt and
these len(p) bytes fill exactly, so WriteByte does not fail. -/
def writeLoop (key : Digest) : Nat → List Nat → List Nat → List Nat
  | _, [], buffer => buffer
  | index, c :: rest, buffer =>
    writeLoop key (index + 1) rest (buffer ++ [c ^^^ keyAt key index])

/-- Outcome of WriteTo: the datagram handed to the wrapped PacketConn.WriteTo and the
returned (n, err). -/
structure WriteToResult where
  datagram : List Nat
  n : Nat
  err : Option Err
deriving Repr, DecidableEq

/-- SalamanderPacketConn.WriteTo: salt is the output of buffer.WriteRandom(salamanderSaltLen)
(always salamanderSaltLen bytes), werr the error returned by the wrapped WriteTo. -/
def SalamanderPacketConn.WriteTo (sum256 : Sum256) (s : SalamanderPacketConn)
    (salt : List Nat) (p : List Nat) (werr : Option Err) : WriteToResult :=
  let buffer := salt
  let key := sum256 (s.password ++ buffer)
  let buffer := writeLoop key 0 p buffer
  match werr with
  | some e => { datagram := buffer, n := 0, err := some e }
  | none => { datagram := buffer, n := p.length, err := none }

/-! ## client.go -/

/-- What client.go uses from packages that are not part of the embedded files: the
status code protocol.StatusAuthOK, the request framing protocol.WriteTCPRequest and
the error normalisation baderror.WrapQUIC. -/
structure Deps where
  StatusAuthOK : Nat
  WriteTCPRequest : String → List Nat → List Nat
  WrapQUIC : Option Err → Option Err

/-- The value protocol.AuthResponse parsed from the response header. -/
structure AuthResponse where
  UDPEnabled : Bool
  Rx : Nat
  RxAuto : Bool
deriving Repr, DecidableEq

/-- The congestion controller installed on the QUIC connection by offerNew:
quicConn.SetCongestionControl(hyCC.NewBrutalSender(actualTx, c.brutalDebug, c.logger))
or SetCongestionController(quicConn, name, cwnd). -/
inductive CongestionControl where
  | brutal (actualTx : Nat) (debug : Bool)
  | named (name : String) (cwnd : Int)
deriving Repr, DecidableEq

/-- An endpoint created by newUDPPacketConn; only the fields set in client.go. -/
structure udpPacketConn where
  sessionID : Nat
  udpMTU : Int
deriving Repr, DecidableEq

/-- The dynamic type of the packet socket that offerNew builds and stores as rawConn:
the result of bufio.NewBindPacketConn, of bufio.NewBindHoppingPacketConn, or of
NewSalamanderConn around one of them. -/
inductive PacketConnKind where
  | bind
  | bindHopping
  | salamander (inner : PacketConnKind)
deriving Repr, DecidableEq

/-- Whether the type assertion rawConn.(bufio.BindHoppingPacketConn) of hop() succeeds.
Only the socket made by NewBindHoppingPacketConn has the method HopTo: the struct
SalamanderPacketConn embeds the interface net.PacketConn and declares ReadFrom and WriteTo
only, so its method set has no HopTo whatever it wraps, and the plain bind socket does not
hop. -/
def PacketConnKind.isBindHopping : PacketConnKind → Bool
  | .bindHopping => true
  | .bind => false
  | .salamander _ => false

/-- The struct clientQUICConnection.  rawConn is the dynamic type of the stored socket,
closeOnce is the done flag of the sync.Once, connDone tells whether the channel is closed,
quicCtxDone whether the context of the QUIC connection is done; connDoneCloses,
quicConnCloses and rawConnCloses count the calls close(c.connDone),
c.quicConn.CloseWithError(0, "") and c.rawConn.Close(); udpConnMap is the Go map as an
association list with distinct keys. -/
structure clientQUICConnection where
  rawConn : PacketConnKind
  quicCtxDone : Bool
  closeOnce : Bool
  connDone : Bool
  connErr : Option Err
  udpDisabled : Bool
  udpConnMap : List (Nat × udpPacketConn)
  udpSessionID : Nat
  connDoneCloses : Nat
  quicConnCloses : Nat
  rawConnCloses : Nat
deriving Repr, DecidableEq

/-- The struct Client (context, dialer, logger, TLS and QUIC configuration left out). -/
structure Client where
  brutalDebug : Bool
  serverAddr : Socksaddr
  serverAddrs : List Socksaddr
  serverAddrIndex : Nat
  sendBPS : Nat
  receiveBPS : Nat
  salamanderPassword : String
  password : String
  udpDisabled : Bool
  cwnd : Int
  udpMTU : Int
  conn : Option clientQUICConnection
deriving Repr, DecidableEq

/-- The method clientQUICConnection.active. -/
def clientQUICConnection.active (c : clientQUICConnection) : Bool :=
  if c.quicCtxDone then false
  else if c.connDone then false
  else true

/-- The call rand.Intn(n) for the raw random draw r: a value in [0, n), and a panic
(none) when n ≤ 0. -/
def randIntn (r n : Nat) : Option Nat :=
  if n = 0 then none else some (r % n)

/-- Outcome of one hop(): the client as the call leaves it, the returned flag, the address
c.serverAddr whose UDPAddr() was handed to rawConn.HopTo when HopTo was called, and whether
the call ended in a run-time panic instead of returning (client is then the state at the
panic, and exit and hopTo carry no meaning). -/
structure HopResult where
  client : Client
  exit : Bool
  hopTo : Option Socksaddr
  panicked : Bool
deriving Repr, DecidableEq

/-- The method Client.hop, for the random draw r.  It panics in rand.Intn on an empty pool,
and in the single-value type assertion c.conn.rawConn.(bufio.BindHoppingPacketConn) when
the session is active and its raw socket has no HopTo method; the two assignments to
serverAddrIndex and serverAddr come before the assertion. -/
def Client.hop (c : Client) (r : Nat) : HopResult :=
  match randIntn r c.serverAddrs.length with
  | none => { client := c, exit := false, hopTo := none, panicked := true }
  | some index =>
    match c.serverAddrs[index]? with
    | none =>
      { client := { c with serverAddrIndex := index }, exit := false, hopTo := none,
        panicked := true }
    | some addr =>
      let c1 := { c with serverAddrIndex := index, serverAddr := addr }
      match c1.conn with
      | some conn =>
        if conn.active then
          if conn.rawConn.isBindHopping then
            { client := c1, exit := false, hopTo := some c1.serverAddr, panicked := false }
          else
            { client := c1, exit := false, hopTo := none, panicked := true }
        else { client := c1, exit := true, hopTo := none, panicked := false }
      | none => { client := c1, exit := true, hopTo := none, panicked := false }

/-- One firing of the ticker in hopLoop: the random draw of this tick and the value of
c.conn at the time hop() takes the lock (sessions are created and closed by other
goroutines between ticks). -/
structure Tick where
  draw : Nat
  conn : Option clientQUICConnection
deriving Repr, DecidableEq

/-- Whether hop() runs to its end at this tick: there is no session, or the session is not
active, or its raw socket passes the type assertion. -/
def Tick.canHop (t : Tick) : Bool :=
  match t.conn with
  | none => true
  | some conn => !conn.active || conn.rawConn.isBindHopping

/-- Where hopLoop stands after the given ticks: still waiting for the next tick, returned
(hop() returned true), or ended by a panic inside hop(). -/
inductive LoopStatus where
  | waiting
  | returned
  | panicked
deriving Repr, DecidableEq

/-- The method Client.hopLoop run over the given ticks: hop() at every tick until it
returns true or panics; the result is the client as the loop leaves it and where the loop
stands. -/
def Client.hopLoop (c : Client) : List Tick → Client × LoopStatus
  | [] => (c, .waiting)
  | t :: rest =>
    let r := Client.hop { c with conn := t.conn } t.draw
    if r.panicked then (r.client, .panicked)
    else if r.exit then (r.client, .returned)
    else Client.hopLoop r.client rest

/-- The HTTP response of the authentication round trip. -/
structure Response where
  StatusCode : Nat
  auth : AuthResponse
deriving Repr, DecidableEq

/-- Results of the external calls made by offerNew: dialer.ListenPacket, qtls.CreateTransport
and http3Transport.RoundTrip. -/
structure OfferEnv where
  listenPacketErr : Option Err
  createTransportErr : Option Err
  roundTrip : Except Err Response

/-- What a successful offerNew did: the client with c.conn set, the new connection, the
controller installed, whether the socket is a hopping one, whether it was wrapped by
NewSalamanderConn, and whether loopMessages was started. -/
structure Offered where
  client : Client
  conn : clientQUICConnection
  congestion : CongestionControl
  hopping : Bool
  salamander : Bool
  loopMessages : Bool
deriving Repr, DecidableEq

/-- The lines `actualTx := authResponse.Rx; if actualTx == 0 || actualTx > c.sendBPS
{ actualTx = c.sendBPS }` of offerNew. -/
def offerNew_actualTx (c : Client) (authResponse : AuthResponse) : Nat :=
  if authResponse.Rx = 0 ∨ authResponse.Rx > c.sendBPS then c.sendBPS else authResponse.Rx

/-- The method Client.offerNew. -/
def Client.offerNew (D : Deps) (c : Client) (env : OfferEnv) : Except Err Offered :=
  match env.listenPacketErr with
  | some e => .error e
  | none =>
    match env.createTransportErr with
    | some e => .error e
    | none =>
      match env.roundTrip with
      | .error e => .error e
      | .ok response =>
        if response.StatusCode ≠ D.StatusAuthOK then
          .error ("authentication failed, status code: " ++ toString response.StatusCode)
        else
          let authResponse := response.auth
          let actualTx := offerNew_actualTx c authResponse
          let congestion :=
            if !authResponse.RxAuto && decide (actualTx > 0) then
              CongestionControl.brutal actualTx c.brutalDebug
            else
              CongestionControl.named "bbr" c.cwnd
          let packetConn : PacketConnKind :=
            if c.serverAddrs.length > 0 then .bindHopping else .bind
          let packetConn : PacketConnKind :=
            if c.salamanderPassword ≠ "" then .salamander packetConn else packetConn
          let conn : clientQUICConnection :=
            { rawConn := packetConn
              quicCtxDone := false, closeOnce := false, connDone := false, connErr := none
              udpDisabled := !authResponse.UDPEnabled
              udpConnMap := [], udpSessionID := 0
              connDoneCloses := 0, quicConnCloses := 0, rawConnCloses := 0 }
          .ok { client := { c with conn := some conn }
                conn := conn
                congestion := congestion
                hopping := decide (c.serverAddrs.length > 0)
                salamander := decide (c.salamanderPassword ≠ "")
                loopMessages := !c.udpDisabled }

/-- The statement delete(conn.udpConnMap, sessionID). -/
def mapDelete (m : List (Nat × udpPacketConn)) (sessionID : Nat) : List (Nat × udpPacketConn) :=
  m.filter (fun kv => kv.1 ≠ sessionID)

/-- The statement conn.udpConnMap[sessionID] = clientPacketConn. -/
def mapStore (m : List (Nat × udpPacketConn)) (sessionID : Nat) (pc : udpPacketConn) :
    List (Nat × udpPacketConn) :=
  (sessionID, pc) :: mapDelete m sessionID

/-- The method Client.ListenPacket; offered is the result of c.offer(ctx).  The counter
udpSessionID is a uint32, so the increment wraps at 2^32. -/
def Client.ListenPacket (c : Client) (offered : Except Err clientQUICConnection) :
    Except Err (clientQUICConnection × udpPacketConn) :=
  if c.udpDisabled then .error "invalid argument"
  else
    match offered with
    | .error e => .error e
    | .ok conn =>
      if conn.udpDisabled then .error "UDP disabled by server"
      else
        let sessionID := conn.udpSessionID
        let clientPacketConn : udpPacketConn := { sessionID := sessionID, udpMTU := c.udpMTU }
        .ok ({ conn with
                udpSessionID := (conn.udpSessionID + 1) % 2 ^ 32
                udpConnMap := mapStore conn.udpConnMap sessionID clientPacketConn },
             clientPacketConn)

/-- The closure handed to newUDPPacketConn by ListenPacket, run when the endpoint is
closed: it deletes the captured sessionID from the table. -/
def closeCallback (conn : clientQUICConnection) (sessionID : Nat) : clientQUICConnection :=
  { conn with udpConnMap := mapDelete conn.udpConnMap sessionID }

/-- The method clientQUICConnection.closeWithError: the body runs under closeOnce.Do. -/
def clientQUICConnection.closeWithError (c : clientQUICConnection) (err : Option Err) :
    clientQUICConnection :=
  if c.closeOnce then c
  else
    { c with
        closeOnce := true
        connErr := err
        connDone := true
        connDoneCloses := c.connDoneCloses + 1
        quicConnCloses := c.quicConnCloses + 1
        rawConnCloses := c.rawConnCloses + 1 }

/-- The method Client.CloseWithError. -/
def Client.CloseWithError (c : Client) (err : Option Err) : Client :=
  match c.conn with
  | some conn => { c with conn := some (conn.closeWithError err) }
  | none => c

/-- The struct clientConn (the embedded quic.Stream is external). -/
structure clientConn where
  destination : Socksaddr
  requestWritten : Bool
  responseRead : Bool
deriving Repr, DecidableEq

/-- Result (n, err) of one Stream.Read or Stream.Write. -/
structure StreamResult where
  n : Nat
  err : Option Err
deriving Repr, DecidableEq

/-- The method clientConn.NeedHandshake. -/
def clientConn.NeedHandshake (c : clientConn) : Bool :=
  !c.requestWritten

/-- Outcome of clientConn.Write: the handle afterwards, the byte strings handed to
Stream.Write in order, and the returned (n, err). -/
structure WriteOutcome where
  conn : clientConn
  sent : List (List Nat)
  n : Nat
  err : Option Err
deriving Repr, DecidableEq

/-- The method clientConn.Write; r is the result of the Stream.Write it issues. -/
def clientConn.Write (D : Deps) (c : clientConn) (p : List Nat) (r : StreamResult) :
    WriteOutcome :=
  if !c.requestWritten then
    let buffer := D.WriteTCPRequest c.destination p
    if r.err ≠ none then
      { conn := c, sent := [buffer], n := 0, err := r.err }
    else
      { conn := { c with requestWritten := true }, sent := [buffer], n := p.length, err := none }
  else
    { conn := c, sent := [p], n := r.n, err := D.WrapQUIC r.err }

/-- Result (status, errorMessage, err) of protocol.ReadTCPResponse(c.Stream). -/
structure TCPResponse where
  status : Bool
  errorMessage : String
  err : Option Err
deriving Repr, DecidableEq

/-- Outcome of clientConn.Read: the handle afterwards, the returned (n, err), and how
many times the response frame was parsed and Stream.Read was called on p. -/
structure ReadOutcome where
  conn : clientConn
  n : Nat
  err : Option Err
  responseParses : Nat
  streamReads : Nat
deriving Repr, DecidableEq

/-- The method clientConn.Read; resp is the result of protocol.ReadTCPResponse if it is
called, r the result of Stream.Read(p) if it is called. -/
def clientConn.Read (D : Deps) (c : clientConn) (resp : TCPResponse) (r : StreamResult) :
    ReadOutcome :=
  if c.responseRead then
    { conn := c, n := r.n, err := D.WrapQUIC r.err, responseParses := 0, streamReads := 1 }
  else if resp.err ≠ none then
    { conn := c, n := 0, err := D.WrapQUIC resp.err, responseParses := 1, streamReads := 0 }
  else if !resp.status then
    { conn := c, n := 0, err := some ("remote error: " ++ resp.errorMessage),
      responseParses := 1, streamReads := 0 }
  else
    { conn := { c with responseRead := true }, n := r.n, err := D.WrapQUIC r.err,
      responseParses := 1, streamReads := 1 }

/-! ## Runs of several calls -/

/-- A sequence of clientConn.Write calls, each with its payload and the result of the
Stream.Write it issues: the handle afterwards and all byte strings handed to
Stream.Write, in order. -/
def writeAll (D : Deps) (c : clientConn) : List (List Nat × StreamResult) →
    clientConn × List (List Nat)
  | [] => (c, [])
  | (p, r) :: rest =>
    let o := clientConn.Write D c p r
    let t := writeAll D o.conn rest
    (t.1, o.sent ++ t.2)

/-- The session ids registered in a table. -/
def keys (m : List (Nat × udpPacketConn)) : List Nat := m.map Prod.fst

/-- An operation on the endpoint table of one session: a ListenPacket call, or the close
callback of the endpoint with the given session id. -/
inductive SessionOp where
  | listenPacket
  | close (sessionID : Nat)
deriving Repr, DecidableEq

/-- One assignment of a session id: the id, and the ids registered in the table when
it was assigned. -/
structure Assignment where
  sessionID : Nat
  registered : List Nat
deriving Repr, DecidableEq

/-- A sequence of operations on one session (c.offer keeps returning conn): the session
afterwards and the assignments made, oldest first. -/
def runSession (c : Client) : List SessionOp → clientQUICConnection →
    clientQUICConnection × List Assignment
  | [], conn => (conn, [])
  | .listenPacket :: rest, conn =>
    match Client.ListenPacket c (.ok conn) with
    | .error _ => runSession c rest conn
    | .ok (conn1, pc) =>
      let t := runSession c rest conn1
      (t.1, { sessionID := pc.sessionID, registered := keys conn.udpConnMap } :: t.2)
  | .close sessionID :: rest, conn => runSession c rest (closeCallback conn sessionID)

/-- Calling closeWithError once per element of errs, in order. -/
def closeAll (c : clientQUICConnection) (errs : List (Option Err)) : clientQUICConnection :=
  errs.foldl clientQUICConnection.closeWithError c

/-- The bytes appended by writeLoop: byte j of cs xored with key byte (index + j) mod 32. -/
def xorFrom (key : Digest) : Nat → List Nat → List Nat
  | _, [] => []
  | index, c :: rest => (c ^^^ keyAt key index) :: xorFrom key (index + 1) rest

/-! ## The controller selection as the specification words it -/

/-- Controller selection in the words of the specification: rate-paced exactly when auto
is false and granted is nonzero, with rate min(granted, cap) if cap is nonzero and
granted otherwise; else the adaptive controller with the window override. -/
def specCongestion (granted : Nat) (auto : Bool) (cap : Nat) (debug : Bool) (cwnd : Int) :
    CongestionControl :=
  if auto = false ∧ granted ≠ 0 then
    CongestionControl.brutal (if cap ≠ 0 then min granted cap else granted) debug
  else
    CongestionControl.named "bbr" cwnd

/-! ## Concrete data for the worked instances -/

/-- A stand-in digest function used to evaluate the worked instances. -/
def toyHash : Sum256 := fun bs i => (bs.sum + 7 * i.val) % 256

/-- Stand-in dependencies used to evaluate the worked instances: status 233, a frame
made of the address length, the address bytes and the payload, and the identity for
WrapQUIC. -/
def toyDeps : Deps :=
  { StatusAuthOK := 233
    WriteTCPRequest := fun a p => a.length :: (a.toList.map Char.toNat ++ p)
    WrapQUIC := fun e => e }

/-- A client with a pool of three addresses and a send cap of 5. -/
def toyClient : Client :=
  { brutalDebug := false, serverAddr := "a:1", serverAddrs := ["a:1", "b:2", "c:3"]
    serverAddrIndex := 0, sendBPS := 5, receiveBPS := 0, salamanderPassword := ""
    password := "pw", udpDisabled := false, cwnd := 32, udpMTU := 1200, conn := none }

/-- An environment in which the handshake succeeds with the given granted rate and auto flag. -/
def okEnv (rx : Nat) (auto : Bool) : OfferEnv :=
  { listenPacketErr := none, createTransportErr := none
    roundTrip := .ok { StatusCode := 233, auth := { UDPEnabled := true, Rx := rx, RxAuto := auto } } }

/-- A freshly created session with datagrams enabled, on a hopping socket. -/
def freshConn : clientQUICConnection :=
  { rawConn := .bindHopping
    quicCtxDone := false, closeOnce := false, connDone := false, connErr := none
    udpDisabled := false, udpConnMap := [], udpSessionID := 0
    connDoneCloses := 0, quicConnCloses := 0, rawConnCloses := 0 }

/-! # Theorems -/

/-! ## Controller selection in offerNew -/

/-- The rate computed by offerNew is positive exactly when the local cap is. -/
theorem offerNew_actualTx_pos_iff (c : Client) (a : AuthResponse) :
    0 < offerNew_actualTx c a ↔ c.sendBPS ≠ 0 := by
  unfold offerNew_actualTx
  split_ifs with h <;> omega

/-- The rate computed by offerNew never exceeds the local cap. -/
theorem offerNew_actualTx_le (c : Client) (a : AuthResponse) :
    offerNew_actualTx c a ≤ c.sendBPS := by
  unfold offerNew_actualTx
  split_ifs with h <;> omega

/-- The rate computed by offerNew in closed form. -/
theorem offerNew_actualTx_eq (c : Client) (a : AuthResponse) :
    offerNew_actualTx c a = if a.Rx ≠ 0 then min a.Rx c.sendBPS else c.sendBPS := by
  unfold offerNew_actualTx
  split_ifs with h1 h2 h2 <;> omega

/-- A successful handshake makes offerNew return, with the controller chosen from the
computed rate. -/
theorem offerNew_ok (D : Deps) (c : Client) (env : OfferEnv) (response : Response)
    (h1 : env.listenPacketErr = none) (h2 : env.createTransportErr = none)
    (h3 : env.roundTrip = .ok response) (h4 : response.StatusCode = D.StatusAuthOK) :
    ∃ o, c.offerNew D env = .ok o ∧
      o.congestion =
        (if !response.auth.RxAuto && decide (offerNew_actualTx c response.auth > 0) then
          CongestionControl.brutal (offerNew_actualTx c response.auth) c.brutalDebug
        else CongestionControl.named "bbr" c.cwnd) := by
  simp [Client.offerNew, h1, h2, h3, h4]

/-- Whenever offerNew returns a result, the handshake succeeded. -/
theorem offerNew_ok_inv (D : Deps) (c : Client) (env : OfferEnv) (o : Offered)
    (h : c.offerNew D env = .ok o) :
    ∃ response, env.listenPacketErr = none ∧ env.createTransportErr = none ∧
      env.roundTrip = .ok response ∧ response.StatusCode = D.StatusAuthOK := by
  unfold Client.offerNew at h
  cases h1 : env.listenPacketErr with
  | some e => simp [h1] at h
  | none =>
    cases h2 : env.createTransportErr with
    | some e => simp [h1, h2] at h
    | none =>
      cases h3 : env.roundTrip with
      | error e => simp [h1, h2, h3] at h
      | ok response =>
        by_cases h4 : response.StatusCode = D.StatusAuthOK
        · exact ⟨response, rfl, rfl, rfl, h4⟩
        · simp [h1, h2, h3, h4] at h

/-! ## Salamander -/

/-- The loop of WriteTo appends xorFrom to the buffer. -/
theorem writeLoop_eq (key : Digest) (cs : List Nat) :
    ∀ (index : Nat) (buffer : List Nat),
      writeLoop key index cs buffer = buffer ++ xorFrom key index cs := by
  induction cs with
  | nil => intro index buffer; simp [writeLoop, xorFrom]
  | cons c rest ih =>
    intro index buffer
    simp [writeLoop, xorFrom, ih]

/-- Length of the appended bytes. -/
theorem xorFrom_length (key : Digest) (cs : List Nat) :
    ∀ index : Nat, (xorFrom key index cs).length = cs.length := by
  induction cs with
  | nil => intro index; rfl
  | cons c rest ih => intro index; simp [xorFrom, ih]

/-- Byte j of the appended bytes. -/
theorem xorFrom_getElem? (key : Digest) (cs : List Nat) :
    ∀ (index j : Nat),
      (xorFrom key index cs)[j]? = cs[j]?.map (fun c => c ^^^ keyAt key (index + j)) := by
  induction cs with
  | nil => intro index j; simp [xorFrom]
  | cons c rest ih =>
    intro index j
    cases j with
    | zero => simp [xorFrom]
    | succ j =>
      simp only [xorFrom, List.getElem?_cons_succ, ih]
      have : index + 1 + j = index + (j + 1) := by omega
      rw [this]

/-- The in-place loop of ReadFrom keeps the length of the buffer. -/
theorem readLoop_length (key : Digest) (count : Nat) :
    ∀ (index : Nat) (p : List Nat), (readLoop key count index p).length = p.length := by
  induction count with
  | zero => intro index p; rfl
  | succ count ih => intro index p; simp [readLoop, ih]

/-- The in-place loop of ReadFrom, position by position: positions index .. index+count-1
receive the byte found salamanderSaltLen places further on in the buffer as it was before
the loop, xored with the key; all other positions keep their byte. -/
theorem readLoop_getElem? (key : Digest) (count : Nat) :
    ∀ (index : Nat) (p : List Nat) (j : Nat),
      (readLoop key count index p)[j]?
        = if index ≤ j ∧ j < index + count ∧ j < p.length then
            some (p.getD (salamanderSaltLen + j) 0 ^^^ keyAt key j)
          else p[j]? := by
  induction count with
  | zero =>
    intro index p j
    have : ¬ (index ≤ j ∧ j < index + 0 ∧ j < p.length) := by omega
    rw [if_neg this, readLoop]
  | succ count ih =>
    intro index p j
    rw [readLoop, ih]
    simp only [List.length_set]
    by_cases h1 : index + 1 ≤ j ∧ j < index + 1 + count ∧ j < p.length
    · have h2 : index ≤ j ∧ j < index + (count + 1) ∧ j < p.length := by omega
      rw [if_pos h1, if_pos h2]
      have hne : index ≠ salamanderSaltLen + j := by
        unfold salamanderSaltLen; omega
      simp only [List.getD_eq_getElem?_getD, List.getElem?_set_ne hne]
    · rw [if_neg h1]
      by_cases h3 : index = j
      · subst h3
        by_cases h4 : index < p.length
        · have h2 : index ≤ index ∧ index < index + (count + 1) ∧ index < p.length := by omega
          rw [if_pos h2, List.getElem?_set_self h4]
        · have h2 : ¬ (index ≤ index ∧ index < index + (count + 1) ∧ index < p.length) := by
            omega
          rw [if_neg h2, List.getElem?_eq_none (by simp; omega),
            List.getElem?_eq_none (Nat.le_of_not_lt h4)]
      · have h2 : ¬ (index ≤ j ∧ j < index + (count + 1) ∧ j < p.length) := by omega
        rw [if_neg h2, List.getElem?_set_ne h3]

/-- The datagram emitted by WriteTo is the salt followed by the xored payload. -/
theorem WriteTo_datagram (sum256 : Sum256) (s : SalamanderPacketConn) (salt p : List Nat)
    (werr : Option Err) :
    (SalamanderPacketConn.WriteTo sum256 s salt p werr).datagram
      = salt ++ xorFrom (sum256 (s.password ++ salt)) 0 p := by
  unfold SalamanderPacketConn.WriteTo
  cases werr <;> simp [writeLoop_eq]

/-- A datagram no longer than the salt is passed through as received. -/
theorem ReadFrom_short (sum256 : Sum256) (s : SalamanderPacketConn) (raw : RawRead)
    (h8 : raw.n ≤ salamanderSaltLen) : s.ReadFrom sum256 raw = some raw := by
  unfold SalamanderPacketConn.ReadFrom
  split_ifs <;> rfl

/-- A longer datagram that fits the buffer is stripped of its salt and xored in place. -/
theorem ReadFrom_long (sum256 : Sum256) (s : SalamanderPacketConn) (raw : RawRead)
    (herr : raw.err = none) (h8 : salamanderSaltLen < raw.n) (hlen : raw.n ≤ raw.p.length) :
    s.ReadFrom sum256 raw
      = some { p := readLoop (sum256 (s.password ++ raw.p.take salamanderSaltLen))
                      (raw.n - salamanderSaltLen) 0 raw.p
               n := raw.n - salamanderSaltLen
               addr := raw.addr
               err := none } := by
  unfold SalamanderPacketConn.ReadFrom
  rw [if_neg (by simp [herr]), if_neg (by omega), if_neg (by omega)]

/-- C8: when the wrapped socket delivers a datagram of length n into the buffer without
error, ReadFrom returns without error and with the same source address; for n ≤ 8 (the salt
length) it returns the same n and leaves the buffer unmodified, and for n > 8 it returns
n − 8. -/
theorem C8_ReadFrom_length (sum256 : Sum256) (s : SalamanderPacketConn) (raw : RawRead)
    (herr : raw.err = none) (hlen : raw.n ≤ raw.p.length) :
    ∃ out, s.ReadFrom sum256 raw = some out ∧ out.err = none ∧ out.addr = raw.addr ∧
      (if raw.n ≤ 8 then out.n = raw.n ∧ out.p = raw.p else out.n = raw.n - 8) := by
  by_cases h8 : raw.n ≤ 8
  · refine ⟨raw, ReadFrom_short sum256 s raw h8, herr, rfl, ?_⟩
    simp [h8]
  · refine ⟨_, ReadFrom_long sum256 s raw herr (by unfold salamanderSaltLen; omega) hlen,
      rfl, rfl, ?_⟩
    simp [h8, salamanderSaltLen]

/-- C8, worked instances: a datagram of 3 bytes passes through, one of 10 bytes gives 2. -/
theorem C8_ReadFrom_length_witness :
    (∃ out, SalamanderPacketConn.ReadFrom toyHash ⟨[1, 2]⟩ ⟨[9, 8, 7, 0], 3, "src", none⟩
        = some out ∧ out.err = none ∧ out.addr = "src" ∧
      (if 3 ≤ 8 then out.n = 3 ∧ out.p = [9, 8, 7, 0] else out.n = 3 - 8)) ∧
    (∃ out, SalamanderPacketConn.ReadFrom toyHash ⟨[1, 2]⟩
        ⟨[1, 2, 3, 4, 5, 6, 7, 8, 9, 10], 10, "src", none⟩
        = some out ∧ out.err = none ∧ out.addr = "src" ∧
      (if 10 ≤ 8 then out.n = 10 ∧ out.p = [1, 2, 3, 4, 5, 6, 7, 8, 9, 10]
        else out.n = 10 - 8)) :=
  ⟨C8_ReadFrom_length toyHash ⟨[1, 2]⟩ ⟨[9, 8, 7, 0], 3, "src", none⟩ rfl (by decide),
   C8_ReadFrom_length toyHash ⟨[1, 2]⟩ ⟨[1, 2, 3, 4, 5, 6, 7, 8, 9, 10], 10, "src", none⟩ rfl
    (by decide)⟩

/-- C1, as stated, fails on the code for the empty payload: WriteTo emits the bare 8-byte
salt, and ReadFrom returns n = 8 for it, not n = 0. -/
theorem C1_counterexample :
    (SalamanderPacketConn.WriteTo toyHash ⟨[1, 2]⟩ [1, 2, 3, 4, 5, 6, 7, 8] [] none).datagram
      = [1, 2, 3, 4, 5, 6, 7, 8] ∧
    (SalamanderPacketConn.ReadFrom toyHash ⟨[1, 2]⟩
        ⟨[1, 2, 3, 4, 5, 6, 7, 8], 8, "src", none⟩).map (fun out => out.n) = some 8 ∧
    (8 : Nat) ≠ ([] : List Nat).length := by
  decide

/-- C1 (amended): for every password, every 8-byte salt and every payload, when WriteTo
emits the datagram d = salt ‖ ciphertext and ReadFrom with the same password receives d
into its buffer, ReadFrom returns without error; for a non-empty payload it returns
n = len(payload) and the first n bytes of the buffer equal the payload; for the empty
payload it returns n = 8 and leaves the buffer as received. -/
theorem C1_roundtrip (sum256 : Sum256) (s : SalamanderPacketConn) (salt payload : List Nat)
    (werr : Option Err) (rest : List Nat) (addr : Socksaddr)
    (hsalt : salt.length = salamanderSaltLen) :
    ∃ out,
      s.ReadFrom sum256
          { p := (s.WriteTo sum256 salt payload werr).datagram ++ rest
            n := (s.WriteTo sum256 salt payload werr).datagram.length
            addr := addr, err := none } = some out ∧
      out.err = none ∧
      (if payload = [] then
          out.n = 8 ∧ out.p = (s.WriteTo sum256 salt payload werr).datagram ++ rest
        else out.n = payload.length ∧ out.p.take out.n = payload) := by
  rw [WriteTo_datagram]
  have hs8 : salt.length = 8 := hsalt
  by_cases hp : payload = []
  · subst hp
    refine ⟨_, ReadFrom_short sum256 s _ ?_, rfl, ?_⟩
    · simp [xorFrom, hs8, salamanderSaltLen]
    · simp [xorFrom, hs8]
  · have hpos : 0 < payload.length := List.length_pos.mpr hp
    have hxl := xorFrom_length (sum256 (s.password ++ salt)) payload 0
    have htake : (salt ++ xorFrom (sum256 (s.password ++ salt)) 0 payload ++ rest).take
        salamanderSaltLen = salt := by
      rw [List.append_assoc, ← hsalt, List.take_left]
    refine ⟨_, ReadFrom_long sum256 s _ rfl ?_ ?_, rfl, ?_⟩
    · simp only [List.length_append, hxl, hs8, salamanderSaltLen]; omega
    · simp only [List.length_append]; omega
    · simp only [if_neg hp]
      rw [htake]
      simp only [List.length_append, hxl, hs8, salamanderSaltLen, Nat.add_sub_cancel_left]
      refine ⟨trivial, ?_⟩
      apply List.ext_getElem?
      intro j
      by_cases hj : j < payload.length
      · rw [List.getElem?_take_of_lt hj, readLoop_getElem?]
        have hcond : 0 ≤ j ∧ j < 0 + payload.length ∧
            j < (salt ++ xorFrom (sum256 (s.password ++ salt)) 0 payload ++ rest).length := by
          simp only [List.length_append, hxl, hs8]; omega
        rw [if_pos hcond, List.getD_eq_getElem?_getD, List.append_assoc,
          List.getElem?_append_right (by rw [hs8]; unfold salamanderSaltLen; omega)]
        have hidx : salamanderSaltLen + j - salt.length = j := by
          rw [hs8]; unfold salamanderSaltLen; omega
        rw [hidx, List.getElem?_append_left (by rw [hxl]; exact hj), xorFrom_getElem?,
          List.getElem?_eq_getElem hj]
        simp [Nat.xor_cancel_right]
      · have hj2 : payload.length ≤ j := Nat.le_of_not_lt hj
        rw [List.getElem?_eq_none hj2, List.getElem?_eq_none]
        rw [List.length_take]
        omega

/-- C1 (amended), a worked instance: a three-byte payload received into a larger buffer. -/
theorem C1_roundtrip_witness :
    ∃ out,
      SalamanderPacketConn.ReadFrom toyHash ⟨[1, 2]⟩
          { p := (SalamanderPacketConn.WriteTo toyHash ⟨[1, 2]⟩ [1, 2, 3, 4, 5, 6, 7, 8]
                    [10, 20, 30] none).datagram ++ [0, 0]
            n := (SalamanderPacketConn.WriteTo toyHash ⟨[1, 2]⟩ [1, 2, 3, 4, 5, 6, 7, 8]
                    [10, 20, 30] none).datagram.length
            addr := "src", err := none } = some out ∧
      out.err = none ∧
      (if [10, 20, 30] = ([] : List Nat) then
          out.n = 8 ∧ out.p = (SalamanderPacketConn.WriteTo toyHash ⟨[1, 2]⟩
            [1, 2, 3, 4, 5, 6, 7, 8] [10, 20, 30] none).datagram ++ [0, 0]
        else out.n = [10, 20, 30].length ∧ out.p.take out.n = [10, 20, 30]) :=
  C1_roundtrip toyHash ⟨[1, 2]⟩ [1, 2, 3, 4, 5, 6, 7, 8] [10, 20, 30] none [0, 0] "src" rfl

/-- C2, as stated, fails on the code: with granted rate 0, auto false and cap 5 offerNew
installs the rate-paced controller at rate 5 where the claim has the adaptive one; with
granted rate 7 and cap 0 it installs the adaptive controller where the claim has the
rate-paced one at rate 7. -/
theorem C2_counterexample :
    ((toyClient.offerNew toyDeps (okEnv 0 false)).toOption.map (fun o => o.congestion)
        = some (CongestionControl.brutal 5 false)
      ∧ specCongestion 0 false 5 false 32 = CongestionControl.named "bbr" 32)
    ∧ ((Client.offerNew toyDeps { toyClient with sendBPS := 0 } (okEnv 7 false)).toOption.map
          (fun o => o.congestion) = some (CongestionControl.named "bbr" 32)
      ∧ specCongestion 7 false 0 false 32 = CongestionControl.brutal 7 false) := by
  refine ⟨⟨?_, ?_⟩, ?_, ?_⟩ <;> decide

/-- C2 (amended): after a successful handshake offerNew returns, and the controller it
installed is the rate-paced (Brutal) one exactly when auto is false and the local cap is
nonzero, with rate min(granted, cap) if granted is nonzero and rate cap if granted is
zero; in every other case it is the adaptive (bbr) controller with the configured
window override. -/
theorem C2_offerNew_congestion (D : Deps) (c : Client) (env : OfferEnv) (response : Response)
    (h1 : env.listenPacketErr = none) (h2 : env.createTransportErr = none)
    (h3 : env.roundTrip = .ok response) (h4 : response.StatusCode = D.StatusAuthOK) :
    ∃ o, c.offerNew D env = .ok o ∧
      o.congestion =
        (if response.auth.RxAuto = false ∧ c.sendBPS ≠ 0 then
          CongestionControl.brutal
            (if response.auth.Rx ≠ 0 then min response.auth.Rx c.sendBPS else c.sendBPS)
            c.brutalDebug
        else CongestionControl.named "bbr" c.cwnd) := by
  obtain ⟨o, ho, hc⟩ := offerNew_ok D c env response h1 h2 h3 h4
  refine ⟨o, ho, ?_⟩
  rw [hc]
  have hpos := offerNew_actualTx_pos_iff c response.auth
  have heq := offerNew_actualTx_eq c response.auth
  by_cases ha : response.auth.RxAuto = false
  · by_cases hs : c.sendBPS = 0
    · have : ¬ (offerNew_actualTx c response.auth > 0) := by
        intro hgt; exact (hpos.mp hgt) hs
      simp [ha, hs, this]
    · have : offerNew_actualTx c response.auth > 0 := hpos.mpr hs
      simp only [ha, Bool.not_false, this, decide_True, Bool.and_self, if_true, ne_eq, hs,
        not_false_eq_true, and_self]
      rw [heq]
  · simp [ha]

/-- C2 (amended), a worked instance: granted rate 9, auto false, cap 5. -/
theorem C2_offerNew_congestion_witness :
    ∃ o, toyClient.offerNew toyDeps (okEnv 9 false) = .ok o ∧
      o.congestion =
        (if false = false ∧ toyClient.sendBPS ≠ 0 then
          CongestionControl.brutal (if 9 ≠ 0 then min 9 toyClient.sendBPS else toyClient.sendBPS)
            toyClient.brutalDebug
        else CongestionControl.named "bbr" toyClient.cwnd) :=
  C2_offerNew_congestion toyDeps toyClient (okEnv 9 false)
    { StatusCode := 233, auth := { UDPEnabled := true, Rx := 9, RxAuto := false } }
    rfl rfl rfl rfl

/-- C10: whenever offerNew installs the rate-paced (Brutal) controller, the rate actualTx
it is given satisfies 0 < actualTx ≤ sendBPS. -/
theorem C10_offerNew_brutal_rate (D : Deps) (c : Client) (env : OfferEnv) (o : Offered)
    (actualTx : Nat) (debug : Bool)
    (h : c.offerNew D env = .ok o) (hb : o.congestion = CongestionControl.brutal actualTx debug) :
    0 < actualTx ∧ actualTx ≤ c.sendBPS := by
  obtain ⟨response, h1, h2, h3, h4⟩ := offerNew_ok_inv D c env o h
  obtain ⟨o2, ho2, hc⟩ := offerNew_ok D c env response h1 h2 h3 h4
  rw [h] at ho2
  cases ho2
  rw [hc] at hb
  split_ifs at hb with hcond
  · cases hb
    simp only [Bool.and_eq_true, decide_eq_true_eq] at hcond
    exact ⟨hcond.2, offerNew_actualTx_le c response.auth⟩

/-- C10, a worked instance: granted rate 3, auto false, cap 5 gives Brutal at rate 3. -/
theorem C10_offerNew_brutal_rate_witness : 0 < 3 ∧ 3 ≤ toyClient.sendBPS :=
  C10_offerNew_brutal_rate toyDeps toyClient (okEnv 3 false)
    { client := { toyClient with conn := some { freshConn with udpDisabled := false } }
      conn := { freshConn with udpDisabled := false }
      congestion := CongestionControl.brutal 3 false
      hopping := true, salamander := false, loopMessages := true }
    3 false rfl rfl

/-! ## Stream relay: clientConn.Write and clientConn.Read -/

/-- Unfolding writeAll at a first call. -/
theorem writeAll_cons (D : Deps) (c : clientConn) (p : List Nat) (r : StreamResult)
    (rest : List (List Nat × StreamResult)) :
    writeAll D c ((p, r) :: rest)
      = ((writeAll D (clientConn.Write D c p r).conn rest).1,
         (clientConn.Write D c p r).sent ++ (writeAll D (clientConn.Write D c p r).conn rest).2) :=
  rfl

/-- Once the request has been written, a run of Write calls hands every payload to the
stream as it is and leaves requestWritten set. -/
theorem writeAll_written (D : Deps) (calls : List (List Nat × StreamResult)) :
    ∀ c : clientConn, c.requestWritten = true →
      (writeAll D c calls).2 = calls.map Prod.fst ∧
      (writeAll D c calls).1.requestWritten = true := by
  induction calls with
  | nil => intro c hc; exact ⟨rfl, hc⟩
  | cons call rest ih =>
    intro c hc
    obtain ⟨p, r⟩ := call
    have hw : clientConn.Write D c p r
        = { conn := c, sent := [p], n := r.n, err := D.WrapQUIC r.err } := by
      simp [clientConn.Write, hc]
    have h := ih c hc
    rw [writeAll_cons, hw]
    exact ⟨by simp [h.1], h.2⟩

/-- While every stream write fails, each Write call sends a request frame and leaves
requestWritten unset. -/
theorem writeAll_failing (D : Deps) (fails : List (List Nat × StreamResult))
    (rest : List (List Nat × StreamResult)) :
    ∀ c : clientConn, c.requestWritten = false →
      (∀ call ∈ fails, call.2.err ≠ none) →
      (writeAll D c (fails ++ rest)).2
          = fails.map (fun call => D.WriteTCPRequest c.destination call.1)
            ++ (writeAll D c rest).2 ∧
      (writeAll D c (fails ++ rest)).1 = (writeAll D c rest).1 := by
  induction fails with
  | nil => intro c _ _; simp
  | cons call more ih =>
    intro c hc hf
    obtain ⟨p, r⟩ := call
    have hr : r.err ≠ none := hf (p, r) (List.mem_cons_self _ _)
    have hw : clientConn.Write D c p r
        = { conn := c, sent := [D.WriteTCPRequest c.destination p], n := 0, err := r.err } := by
      simp [clientConn.Write, hc, hr]
    have h := ih c hc (fun call hcall => hf call (List.mem_cons_of_mem _ hcall))
    rw [List.cons_append, writeAll_cons, hw]
    exact ⟨by simp [h.1], h.2⟩

/-- C3: the first Write(p) on a handle whose request is not yet written, when the stream
write returns no error (whatever byte count it reports), issues exactly one stream write
carrying the request frame built from (destination, p), returns (len(p), nil), and sets
requestWritten, so that NeedHandshake() is false afterwards. -/
theorem C3_first_write (D : Deps) (c : clientConn) (p : List Nat) (r : StreamResult)
    (h0 : c.requestWritten = false) (hr : r.err = none) :
    (clientConn.Write D c p r).sent = [D.WriteTCPRequest c.destination p] ∧
    (clientConn.Write D c p r).n = p.length ∧
    (clientConn.Write D c p r).err = none ∧
    (clientConn.Write D c p r).conn.requestWritten = true ∧
    (clientConn.Write D c p r).conn.NeedHandshake = false := by
  simp [clientConn.Write, clientConn.NeedHandshake, h0, hr]

/-- C3, a worked instance: an empty payload, the stream reporting 0 bytes written. -/
theorem C3_first_write_witness :
    (clientConn.Write toyDeps ⟨"h:80", false, false⟩ [] ⟨0, none⟩).sent
        = [toyDeps.WriteTCPRequest "h:80" []] ∧
    (clientConn.Write toyDeps ⟨"h:80", false, false⟩ [] ⟨0, none⟩).n = ([] : List Nat).length ∧
    (clientConn.Write toyDeps ⟨"h:80", false, false⟩ [] ⟨0, none⟩).err = none ∧
    (clientConn.Write toyDeps ⟨"h:80", false, false⟩ [] ⟨0, none⟩).conn.requestWritten = true ∧
    (clientConn.Write toyDeps ⟨"h:80", false, false⟩ [] ⟨0, none⟩).conn.NeedHandshake = false :=
  C3_first_write toyDeps ⟨"h:80", false, false⟩ [] ⟨0, none⟩ rfl rfl

/-- C4, as stated, fails on the code: when the stream write of the first Write returns an
error, the second Write sends a request frame again instead of the bytes [2]. -/
theorem C4_counterexample :
    (writeAll toyDeps ⟨"h", false, false⟩
        [([1], ⟨0, some "timeout"⟩), ([2], ⟨1, none⟩)]).2
      = [toyDeps.WriteTCPRequest "h" [1], toyDeps.WriteTCPRequest "h" [2]]
    ∧ toyDeps.WriteTCPRequest "h" [2] ≠ [2] := by
  decide

/-- C4 (amended): in every sequence of Write calls on a handle whose request is not yet
written, the relay-request frame is written by each Write up to and including the first
one whose stream write returns no error (so exactly once, by the first Write, when that
stream write succeeds); every Write after that one hands the bytes of the caller to the
stream unmodified, whatever the later stream writes return, and requestWritten stays
set. -/
theorem C4_request_frame_until_success (D : Deps) (c : clientConn)
    (fails : List (List Nat × StreamResult)) (p : List Nat) (r : StreamResult)
    (later : List (List Nat × StreamResult))
    (h0 : c.requestWritten = false) (hf : ∀ call ∈ fails, call.2.err ≠ none)
    (hr : r.err = none) :
    (writeAll D c (fails ++ (p, r) :: later)).2
        = fails.map (fun call => D.WriteTCPRequest c.destination call.1)
          ++ D.WriteTCPRequest c.destination p :: later.map Prod.fst ∧
    (writeAll D c (fails ++ (p, r) :: later)).1.requestWritten = true := by
  have h1 := writeAll_failing D fails ((p, r) :: later) c h0 hf
  have hw : clientConn.Write D c p r
      = { conn := { c with requestWritten := true }
          sent := [D.WriteTCPRequest c.destination p], n := p.length, err := none } := by
    simp [clientConn.Write, h0, hr]
  have h2 := writeAll_written D later { c with requestWritten := true } rfl
  refine ⟨?_, ?_⟩
  · rw [h1.1, writeAll_cons, hw]
    simp [h2.1]
  · rw [h1.2, writeAll_cons, hw]
    exact h2.2

/-- C4 (amended), a worked instance: the first stream write succeeds, a later one fails. -/
theorem C4_request_frame_until_success_witness :
    (writeAll toyDeps ⟨"h", false, false⟩
        ([] ++ ([1], ⟨0, none⟩) :: [([2], ⟨0, some "reset"⟩), ([3], ⟨1, none⟩)])).2
      = ([] : List (List Nat × StreamResult)).map
            (fun call => toyDeps.WriteTCPRequest "h" call.1)
          ++ toyDeps.WriteTCPRequest "h" [1]
            :: [([2], (⟨0, some "reset"⟩ : StreamResult)), ([3], ⟨1, none⟩)].map Prod.fst ∧
    (writeAll toyDeps ⟨"h", false, false⟩
        ([] ++ ([1], ⟨0, none⟩) :: [([2], ⟨0, some "reset"⟩), ([3], ⟨1, none⟩)])).1.requestWritten
      = true :=
  C4_request_frame_until_success toyDeps ⟨"h", false, false⟩ [] [1] ⟨0, none⟩
    [([2], ⟨0, some "reset"⟩), ([3], ⟨1, none⟩)] rfl (by simp) rfl

/-- C5: on a handle whose response has not been read, when the parsed response frame has
status failure with error string m, Read returns n = 0 without reading any payload from
the stream, together with an error whose text contains m, and responseRead stays
false. -/
theorem C5_read_failure (D : Deps) (c : clientConn) (m : String) (resp : TCPResponse)
    (r : StreamResult)
    (h0 : c.responseRead = false) (herr : resp.err = none) (hs : resp.status = false)
    (hm : resp.errorMessage = m) :
    (clientConn.Read D c resp r).n = 0 ∧
    (clientConn.Read D c resp r).streamReads = 0 ∧
    (∃ text before after, (clientConn.Read D c resp r).err = some text ∧
      text = before ++ m ++ after) ∧
    (clientConn.Read D c resp r).conn.responseRead = false := by
  refine ⟨?_, ?_, ⟨"remote error: " ++ m, "remote error: ", "", ?_, ?_⟩, ?_⟩
  · simp [clientConn.Read, h0, herr, hs]
  · simp [clientConn.Read, h0, herr, hs]
  · simp [clientConn.Read, h0, herr, hs, hm]
  · simp
  · simp [clientConn.Read, h0, herr, hs]

/-- C5, a worked instance: the remote message is "auth failed". -/
theorem C5_read_failure_witness :
    (clientConn.Read toyDeps ⟨"h", true, false⟩ ⟨false, "auth failed", none⟩ ⟨4, none⟩).n = 0 ∧
    (clientConn.Read toyDeps ⟨"h", true, false⟩ ⟨false, "auth failed", none⟩ ⟨4, none⟩).streamReads
      = 0 ∧
    (∃ text before after,
      (clientConn.Read toyDeps ⟨"h", true, false⟩ ⟨false, "auth failed", none⟩ ⟨4, none⟩).err
        = some text ∧
      text = before ++ "auth failed" ++ after) ∧
    (clientConn.Read toyDeps ⟨"h", true, false⟩ ⟨false, "auth failed", none⟩
      ⟨4, none⟩).conn.responseRead = false :=
  C5_read_failure toyDeps ⟨"h", true, false⟩ "auth failed" ⟨false, "auth failed", none⟩ ⟨4, none⟩
    rfl rfl rfl rfl

/-! ## Datagram session ids -/

/-- Membership in the keys after delete(m, k). -/
theorem mem_keys_mapDelete (m : List (Nat × udpPacketConn)) (k x : Nat) :
    x ∈ keys (mapDelete m k) ↔ x ∈ keys m ∧ x ≠ k := by
  simp only [keys, mapDelete, List.mem_map, List.mem_filter, decide_eq_true_eq, Prod.exists,
    exists_and_right, exists_eq_right]

/-- Membership in the keys after m[k] = pc. -/
theorem mem_keys_mapStore (m : List (Nat × udpPacketConn)) (k x : Nat) (pc : udpPacketConn) :
    x ∈ keys (mapStore m k pc) ↔ x = k ∨ x ∈ keys m := by
  have h := mem_keys_mapDelete m k x
  simp only [keys] at h
  simp only [keys, mapStore, List.map_cons, List.mem_cons, h]
  constructor
  · rintro (h1 | h1)
    · exact Or.inl h1
    · exact Or.inr h1.1
  · rintro (h1 | h1)
    · exact Or.inl h1
    · by_cases hx : x = k
      · exact Or.inl hx
      · exact Or.inr ⟨h1, hx⟩

/-- A ListenPacket call on an enabled session: the id is the counter, the counter is
incremented modulo 2^32, the endpoint is stored under the id. -/
theorem ListenPacket_ok (c : Client) (conn : clientQUICConnection)
    (hc : c.udpDisabled = false) (hconn : conn.udpDisabled = false) :
    Client.ListenPacket c (.ok conn)
      = .ok ({ conn with
                udpSessionID := (conn.udpSessionID + 1) % 2 ^ 32
                udpConnMap := mapStore conn.udpConnMap conn.udpSessionID
                  { sessionID := conn.udpSessionID, udpMTU := c.udpMTU } },
             { sessionID := conn.udpSessionID, udpMTU := c.udpMTU }) := by
  simp [Client.ListenPacket, hc, hconn]

/-- A ListenPacket call that succeeds, whatever the flags. -/
theorem ListenPacket_inv (c : Client) (conn conn1 : clientQUICConnection) (pc : udpPacketConn)
    (h : Client.ListenPacket c (.ok conn) = .ok (conn1, pc)) :
    pc.sessionID = conn.udpSessionID ∧
    conn1.udpSessionID = (conn.udpSessionID + 1) % 2 ^ 32 ∧
    conn1.udpConnMap = mapStore conn.udpConnMap conn.udpSessionID pc := by
  unfold Client.ListenPacket at h
  by_cases hc : c.udpDisabled = true
  · simp [hc] at h
  · by_cases hconn : conn.udpDisabled = true
    · simp [hc, hconn] at h
    · simp only [hc, hconn, if_false, Bool.false_eq_true] at h
      injection h with h
      injection h with h1 h2
      subst h1 h2
      exact ⟨rfl, rfl, rfl⟩

/-- Unfolding runSession at a ListenPacket call that succeeds. -/
theorem runSession_listen (c : Client) (rest : List SessionOp)
    (conn conn1 : clientQUICConnection) (pc : udpPacketConn)
    (h : Client.ListenPacket c (.ok conn) = .ok (conn1, pc)) :
    runSession c (.listenPacket :: rest) conn
      = ((runSession c rest conn1).1,
         { sessionID := pc.sessionID, registered := keys conn.udpConnMap }
           :: (runSession c rest conn1).2) := by
  simp only [runSession, h]

/-- Unfolding runSession at a ListenPacket call that fails. -/
theorem runSession_listen_error (c : Client) (rest : List SessionOp)
    (conn : clientQUICConnection) (e : Err)
    (h : Client.ListenPacket c (.ok conn) = .error e) :
    runSession c (.listenPacket :: rest) conn = runSession c rest conn := by
  simp only [runSession, h]

/-- Unfolding runSession at a close callback. -/
theorem runSession_close (c : Client) (rest : List SessionOp) (conn : clientQUICConnection)
    (sessionID : Nat) :
    runSession c (.close sessionID :: rest) conn
      = runSession c rest (closeCallback conn sessionID) := rfl

/-- The ids assigned in a run are the successive values of the counter modulo 2^32. -/
theorem runSession_ids (c : Client) (ops : List SessionOp) :
    ∀ conn : clientQUICConnection, conn.udpSessionID < 2 ^ 32 →
      (runSession c ops conn).2.map (fun a => a.sessionID)
        = (List.range (runSession c ops conn).2.length).map
            (fun i => (conn.udpSessionID + i) % 2 ^ 32) := by
  induction ops with
  | nil => intro conn _; rfl
  | cons op rest ih =>
    intro conn hlt
    cases op with
    | close sessionID =>
      rw [runSession_close]
      exact ih (closeCallback conn sessionID) hlt
    | listenPacket =>
      cases hl : Client.ListenPacket c (.ok conn) with
      | error e =>
        rw [runSession_listen_error c rest conn e hl]
        exact ih conn hlt
      | ok res =>
        obtain ⟨conn1, pc⟩ := res
        obtain ⟨hid, hctr, _⟩ := ListenPacket_inv c conn conn1 pc hl
        rw [runSession_listen c rest conn conn1 pc hl]
        have hlt1 : conn1.udpSessionID < 2 ^ 32 := by
          rw [hctr]; exact Nat.mod_lt _ (by norm_num)
        simp only [List.map_cons, List.length_cons, List.range_succ_eq_map, ih conn1 hlt1,
          List.map_map, hid, hctr]
        refine congrArg₂ List.cons ?_ ?_
        · simp only [Nat.add_zero]
          exact (Nat.mod_eq_of_lt hlt).symm
        · apply List.map_congr_left
          intro i _
          simp only [Function.comp]
          omega

/-- Fewer than 2^32 + 1 successive counter values are pairwise different. -/
theorem counter_values_nodup (n k : Nat) (hk : k ≤ 2 ^ 32) :
    ((List.range k).map (fun i => (n + i) % 2 ^ 32)).Nodup := by
  apply List.Nodup.map_on _ (List.nodup_range k)
  intro x hx y hy hxy
  rw [List.mem_range] at hx hy
  omega

/-- Every id registered when an assignment is made was registered at the start of the run
or was assigned earlier in the run. -/
theorem runSession_registered (c : Client) (ops : List SessionOp) :
    ∀ (conn : clientQUICConnection) (before after : List Assignment) (a : Assignment),
      (runSession c ops conn).2 = before ++ a :: after →
      ∀ x ∈ a.registered,
        x ∈ keys conn.udpConnMap ∨ x ∈ before.map (fun b => b.sessionID) := by
  induction ops with
  | nil =>
    intro conn before after a h
    have h2 : ([] : List Assignment) = before ++ a :: after := h
    simp at h2
  | cons op rest ih =>
    intro conn before after a h x hx
    cases op with
    | close sessionID =>
      rw [runSession_close] at h
      rcases ih (closeCallback conn sessionID) before after a h x hx with h1 | h1
      · exact Or.inl ((mem_keys_mapDelete conn.udpConnMap sessionID x).mp h1).1
      · exact Or.inr h1
    | listenPacket =>
      cases hl : Client.ListenPacket c (.ok conn) with
      | error e =>
        rw [runSession_listen_error c rest conn e hl] at h
        exact ih conn before after a h x hx
      | ok res =>
        obtain ⟨conn1, pc⟩ := res
        obtain ⟨hid, _, hmap⟩ := ListenPacket_inv c conn conn1 pc hl
        rw [runSession_listen c rest conn conn1 pc hl] at h
        cases before with
        | nil =>
          simp only [List.nil_append, List.cons.injEq] at h
          rw [← h.1] at hx
          exact Or.inl hx
        | cons b before1 =>
          simp only [List.cons_append, List.cons.injEq] at h
          rcases ih conn1 before1 after a h.2 x hx with h1 | h1
          · rw [hmap, mem_keys_mapStore] at h1
            rcases h1 with h1 | h1
            · right
              rw [List.map_cons, ← h.1]
              exact List.mem_cons.mpr (Or.inl (by rw [h1, hid]))
            · exact Or.inl h1
          · right
            rw [List.map_cons]
            exact List.mem_cons_of_mem _ h1

/-- C6 (amended): for every sequence of registrations (ListenPacket) and removals (close
callbacks) on one session, started with an empty table and the counter at 0, in which at
most 2^32 session ids are assigned, the assigned ids are pairwise different, and each id
differs from every id registered in the table at the time it is assigned. -/
theorem C6_session_ids_fresh (c : Client) (ops : List SessionOp) (conn : clientQUICConnection)
    (hmap : conn.udpConnMap = []) (hctr : conn.udpSessionID = 0)
    (hlen : (runSession c ops conn).2.length ≤ 2 ^ 32) :
    ((runSession c ops conn).2.map (fun a => a.sessionID)).Nodup ∧
    ∀ a ∈ (runSession c ops conn).2, a.sessionID ∉ a.registered := by
  have hnodup : ((runSession c ops conn).2.map (fun a => a.sessionID)).Nodup := by
    rw [runSession_ids c ops conn (by rw [hctr]; norm_num)]
    exact counter_values_nodup _ _ hlen
  refine ⟨hnodup, ?_⟩
  intro a ha hreg
  obtain ⟨before, after, hsplit⟩ := List.append_of_mem ha
  rcases runSession_registered c ops conn before after a hsplit a.sessionID hreg with h1 | h1
  · rw [hmap] at h1
    simp [keys] at h1
  · rw [hsplit, List.map_append, List.map_cons] at hnodup
    have := List.disjoint_of_nodup_append hnodup
    exact this h1 (List.mem_cons_self _ _)

/-- C6 (amended), a worked instance: three registrations with removals in between. -/
theorem C6_session_ids_fresh_witness :
    ((runSession toyClient [.listenPacket, .close 0, .listenPacket, .listenPacket, .close 2]
        freshConn).2.map (fun a => a.sessionID)).Nodup ∧
    ∀ a ∈ (runSession toyClient [.listenPacket, .close 0, .listenPacket, .listenPacket, .close 2]
        freshConn).2, a.sessionID ∉ a.registered :=
  C6_session_ids_fresh toyClient [.listenPacket, .close 0, .listenPacket, .listenPacket, .close 2]
    freshConn rfl rfl (by decide)

/-- A run over two sequences of operations, one after the other. -/
theorem runSession_append (c : Client) (ops1 ops2 : List SessionOp) :
    ∀ conn : clientQUICConnection,
      runSession c (ops1 ++ ops2) conn
        = ((runSession c ops2 (runSession c ops1 conn).1).1,
           (runSession c ops1 conn).2 ++ (runSession c ops2 (runSession c ops1 conn).1).2) := by
  induction ops1 with
  | nil => intro conn; rfl
  | cons op rest ih =>
    intro conn
    cases op with
    | close sessionID =>
      rw [List.cons_append, runSession_close, runSession_close]
      exact ih _
    | listenPacket =>
      cases hl : Client.ListenPacket c (.ok conn) with
      | error e =>
        rw [List.cons_append, runSession_listen_error c _ conn e hl,
          runSession_listen_error c _ conn e hl]
        exact ih _
      | ok res =>
        obtain ⟨conn1, pc⟩ := res
        rw [List.cons_append, runSession_listen c _ conn conn1 pc hl,
          runSession_listen c _ conn conn1 pc hl, ih conn1]
        rfl

/-- A run of k ListenPacket calls with datagrams enabled and no removals: the counter
advances by k modulo 2^32, every registered id stays registered, and when k > 0 the first
assignment is the starting counter value, which is registered afterwards. -/
theorem runSession_listens (c : Client) (hc : c.udpDisabled = false) (k : Nat) :
    ∀ conn : clientQUICConnection, conn.udpDisabled = false → conn.udpSessionID < 2 ^ 32 →
      (runSession c (List.replicate k .listenPacket) conn).1.udpSessionID
        = (conn.udpSessionID + k) % 2 ^ 32 ∧
      (runSession c (List.replicate k .listenPacket) conn).1.udpDisabled = false ∧
      (∀ x ∈ keys conn.udpConnMap,
        x ∈ keys (runSession c (List.replicate k .listenPacket) conn).1.udpConnMap) ∧
      (0 < k →
        conn.udpSessionID ∈ keys (runSession c (List.replicate k .listenPacket) conn).1.udpConnMap ∧
        ∃ later, (runSession c (List.replicate k .listenPacket) conn).2
          = { sessionID := conn.udpSessionID, registered := keys conn.udpConnMap } :: later) := by
  induction k with
  | zero =>
    intro conn hconn hlt
    refine ⟨?_, hconn, fun x hx => hx, fun h => absurd h (Nat.lt_irrefl 0)⟩
    exact (Nat.mod_eq_of_lt hlt).symm
  | succ k ih =>
    intro conn hconn hlt
    have hl := ListenPacket_ok c conn hc hconn
    rw [List.replicate_succ, runSession_listen c _ conn _ _ hl]
    obtain ⟨h1, h2, h3, _⟩ :=
      ih { conn with
            udpSessionID := (conn.udpSessionID + 1) % 2 ^ 32
            udpConnMap := mapStore conn.udpConnMap conn.udpSessionID
              { sessionID := conn.udpSessionID, udpMTU := c.udpMTU } }
        hconn (Nat.mod_lt _ (by norm_num))
    refine ⟨?_, h2, ?_, fun _ => ⟨?_, _, rfl⟩⟩
    · rw [h1]
      show ((conn.udpSessionID + 1) % 2 ^ 32 + k) % 2 ^ 32 = (conn.udpSessionID + (k + 1)) % 2 ^ 32
      omega
    · intro x hx
      exact h3 x ((mem_keys_mapStore _ _ _ _).mpr (Or.inr hx))
    · exact h3 _ ((mem_keys_mapStore _ _ _ _).mpr (Or.inl rfl))

/-- When k > 0 registrations bring the counter back to its starting value, one more
registration is assigned the id of the first one again, while that id is still
registered. -/
theorem runSession_wrap (c : Client) (hc : c.udpDisabled = false) (k : Nat)
    (conn : clientQUICConnection) (hconn : conn.udpDisabled = false)
    (hlt : conn.udpSessionID < 2 ^ 32) (hk : 0 < k)
    (hwrap : (conn.udpSessionID + k) % 2 ^ 32 = conn.udpSessionID) :
    ¬ ((runSession c (List.replicate k .listenPacket ++ [.listenPacket]) conn).2.map
          (fun a => a.sessionID)).Nodup ∧
    ∃ a ∈ (runSession c (List.replicate k .listenPacket ++ [.listenPacket]) conn).2,
      a.sessionID ∈ a.registered := by
  obtain ⟨h1, h2, _, h4⟩ := runSession_listens c hc k conn hconn hlt
  obtain ⟨h5, later, h6⟩ := h4 hk
  rw [hwrap] at h1
  rw [runSession_append]
  generalize runSession c (List.replicate k .listenPacket) conn = r1 at h1 h2 h5 h6
  have hl := ListenPacket_ok c r1.1 hc h2
  have hlast : (runSession c [.listenPacket] r1.1).2
      = [{ sessionID := conn.udpSessionID, registered := keys r1.1.udpConnMap }] := by
    rw [runSession_listen c [] r1.1 _ _ hl, h1]
    rfl
  rw [hlast, h6]
  constructor
  · intro hnd
    simp only [List.cons_append, List.map_cons, List.map_append, List.map_nil,
      List.nodup_cons, List.mem_append, List.mem_singleton, or_true, not_true_eq_false,
      false_and] at hnd
  · exact ⟨{ sessionID := conn.udpSessionID, registered := keys r1.1.udpConnMap },
      List.mem_append_right _ (List.mem_singleton_self _), h5⟩

/-- C6, as stated, fails on the code: after 2^32 registrations on a fresh session the
uint32 counter has wrapped to 0, so one more registration is assigned id 0 again, the id
of the first endpoint, which is still registered in the table. -/
theorem C6_counterexample :
    ¬ ((runSession toyClient (List.replicate 4294967296 .listenPacket ++ [.listenPacket])
          freshConn).2.map (fun a => a.sessionID)).Nodup ∧
    ∃ a ∈ (runSession toyClient (List.replicate 4294967296 .listenPacket ++ [.listenPacket])
          freshConn).2, a.sessionID ∈ a.registered :=
  runSession_wrap toyClient rfl 4294967296 freshConn rfl (by decide) (by decide) (by decide)

/-! ## Session teardown: closeWithError -/

/-- After a first closeWithError the sync.Once is done. -/
theorem closeWithError_closeOnce (s : clientQUICConnection) (e : Option Err) :
    (s.closeWithError e).closeOnce = true := by
  unfold clientQUICConnection.closeWithError
  split_ifs with h
  · exact h
  · rfl

/-- On a session whose sync.Once is done, closeWithError changes nothing. -/
theorem closeWithError_done (s : clientQUICConnection) (e : Option Err)
    (h : s.closeOnce = true) : s.closeWithError e = s := by
  simp [clientQUICConnection.closeWithError, h]

/-- On a session whose sync.Once is done, any number of closeWithError calls changes nothing. -/
theorem closeAll_done (errs : List (Option Err)) :
    ∀ s : clientQUICConnection, s.closeOnce = true → closeAll s errs = s := by
  induction errs with
  | nil => intro s _; rfl
  | cons e rest ih =>
    intro s h
    show closeAll (s.closeWithError e) rest = s
    rw [closeWithError_done s e h]
    exact ih s h

/-- C7: calling closeWithError N ≥ 1 times on a session that was not closed before runs
the teardown actions exactly once, during the first call: the state after all N calls is
the state after the first, the recorded error is the argument of the first call, connDone
was closed once, the transport was closed once and the raw socket was closed once; every
further call leaves the session unchanged. -/
theorem C7_closeWithError_once (s : clientQUICConnection) (e : Option Err)
    (rest : List (Option Err)) (h : s.closeOnce = false) :
    closeAll s (e :: rest) = s.closeWithError e ∧
    (closeAll s (e :: rest)).connErr = e ∧
    (closeAll s (e :: rest)).connDone = true ∧
    (closeAll s (e :: rest)).connDoneCloses = s.connDoneCloses + 1 ∧
    (closeAll s (e :: rest)).quicConnCloses = s.quicConnCloses + 1 ∧
    (closeAll s (e :: rest)).rawConnCloses = s.rawConnCloses + 1 ∧
    ∀ e2 : Option Err, (closeAll s (e :: rest)).closeWithError e2 = closeAll s (e :: rest) := by
  have h1 : closeAll s (e :: rest) = s.closeWithError e :=
    closeAll_done rest (s.closeWithError e) (closeWithError_closeOnce s e)
  rw [h1]
  refine ⟨rfl, ?_, ?_, ?_, ?_, ?_, ?_⟩
  · simp [clientQUICConnection.closeWithError, h]
  · simp [clientQUICConnection.closeWithError, h]
  · simp [clientQUICConnection.closeWithError, h]
  · simp [clientQUICConnection.closeWithError, h]
  · simp [clientQUICConnection.closeWithError, h]
  · intro e2
    exact closeWithError_done _ e2 (closeWithError_closeOnce s e)

/-- C7, a worked instance: three calls with different errors on a fresh session. -/
theorem C7_closeWithError_once_witness :
    closeAll freshConn (some "first" :: [some "second", none])
      = freshConn.closeWithError (some "first") ∧
    (closeAll freshConn (some "first" :: [some "second", none])).connErr = some "first" ∧
    (closeAll freshConn (some "first" :: [some "second", none])).connDone = true ∧
    (closeAll freshConn (some "first" :: [some "second", none])).connDoneCloses
      = freshConn.connDoneCloses + 1 ∧
    (closeAll freshConn (some "first" :: [some "second", none])).quicConnCloses
      = freshConn.quicConnCloses + 1 ∧
    (closeAll freshConn (some "first" :: [some "second", none])).rawConnCloses
      = freshConn.rawConnCloses + 1 ∧
    ∀ e2 : Option Err,
      (closeAll freshConn (some "first" :: [some "second", none])).closeWithError e2
        = closeAll freshConn (some "first" :: [some "second", none]) :=
  C7_closeWithError_once freshConn (some "first") [some "second", none] rfl

/-! ## Address hopping -/

/-- One hop() on a non-empty pool, whether it returns or panics at the type assertion,
keeps the pool and leaves the index and the address pointing at one pool entry. -/
theorem hop_in_pool (c : Client) (r : Nat) (hpool : c.serverAddrs ≠ []) :
    (c.hop r).client.serverAddrs = c.serverAddrs ∧
    (c.hop r).client.serverAddrIndex < c.serverAddrs.length ∧
    c.serverAddrs[(c.hop r).client.serverAddrIndex]? = some (c.hop r).client.serverAddr := by
  have hlen : 0 < c.serverAddrs.length := List.length_pos.mpr hpool
  have hlt : r % c.serverAddrs.length < c.serverAddrs.length := Nat.mod_lt _ hlen
  have hidx : randIntn r c.serverAddrs.length = some (r % c.serverAddrs.length) := by
    simp [randIntn, Nat.pos_iff_ne_zero.mp hlen]
  have hget : c.serverAddrs[r % c.serverAddrs.length]?
      = some (c.serverAddrs[r % c.serverAddrs.length]) := List.getElem?_eq_getElem hlt
  unfold Client.hop
  rw [hidx]
  simp only [hget]
  cases hconn : c.conn with
  | none => exact ⟨rfl, hlt, hget⟩
  | some conn =>
    dsimp only
    by_cases hact : conn.active = true
    · by_cases hraw : conn.rawConn.isBindHopping = true
      · rw [if_pos hact, if_pos hraw]
        exact ⟨rfl, hlt, hget⟩
      · rw [if_pos hact, if_neg hraw]
        exact ⟨rfl, hlt, hget⟩
    · rw [if_neg hact]
      exact ⟨rfl, hlt, hget⟩

/-- One hop() on a non-empty pool does not panic when there is no session, the session is
not active, or its raw socket passes the type assertion. -/
theorem hop_no_panic (c : Client) (t : Tick) (hpool : c.serverAddrs ≠ [])
    (hsafe : t.canHop = true) :
    (Client.hop { c with conn := t.conn } t.draw).panicked = false := by
  have hlen : 0 < c.serverAddrs.length := List.length_pos.mpr hpool
  have hlt : t.draw % c.serverAddrs.length < c.serverAddrs.length := Nat.mod_lt _ hlen
  have hidx : randIntn t.draw c.serverAddrs.length = some (t.draw % c.serverAddrs.length) := by
    simp [randIntn, Nat.pos_iff_ne_zero.mp hlen]
  have hget : c.serverAddrs[t.draw % c.serverAddrs.length]?
      = some (c.serverAddrs[t.draw % c.serverAddrs.length]) := List.getElem?_eq_getElem hlt
  unfold Client.hop
  simp only [hidx, hget]
  unfold Tick.canHop at hsafe
  cases hconn : t.conn with
  | none => rfl
  | some conn =>
    rw [hconn] at hsafe
    dsimp only at hsafe ⊢
    by_cases hact : conn.active = true
    · have hraw : conn.rawConn.isBindHopping = true := by simpa [hact] using hsafe
      rw [if_pos hact, if_pos hraw]
    · rw [if_neg hact]

/-- On a session whose socket was wrapped by NewSalamanderConn, hop() panics at the type
assertion once the session is active, after it has set the index and the address. -/
theorem hop_salamander_panics :
    (Client.hop { toyClient with conn := some { freshConn with rawConn := .salamander .bindHopping } }
        7).panicked = true ∧
    (Client.hop { toyClient with conn := some { freshConn with rawConn := .salamander .bindHopping } }
        7).client.serverAddrIndex = 1 ∧
    (Client.hop { toyClient with conn := some { freshConn with rawConn := .salamander .bindHopping } }
        7).client.serverAddr = "b:2" := by
  decide

/-- C9: for a non-empty address pool and every sequence of N ≥ 1 ticks (every random
draw, every state of the session at each tick), in the state in which hopLoop leaves the
manager (the loop still waiting for a tick, returned, or ended by the panic of the type
assertion in hop()) the pool is unchanged, serverAddrIndex is a valid index of the pool and
serverAddr is the pool entry at that index, hence a member of the pool; and the loop does
not panic when at every tick there is no session, the session is not active, or its raw
socket is a hopping one. -/
theorem C9_hopLoop_addr_in_pool (ticks : List Tick) :
    ∀ (c : Client) (t : Tick), c.serverAddrs ≠ [] →
      (c.hopLoop (t :: ticks)).1.serverAddrs = c.serverAddrs ∧
      (c.hopLoop (t :: ticks)).1.serverAddrIndex < c.serverAddrs.length ∧
      c.serverAddrs[(c.hopLoop (t :: ticks)).1.serverAddrIndex]?
        = some (c.hopLoop (t :: ticks)).1.serverAddr ∧
      (c.hopLoop (t :: ticks)).1.serverAddr ∈ c.serverAddrs ∧
      ((∀ t2 ∈ t :: ticks, t2.canHop = true) →
        (c.hopLoop (t :: ticks)).2 ≠ LoopStatus.panicked) := by
  induction ticks with
  | nil =>
    intro c t hpool
    obtain ⟨hp, hi, ha⟩ := hop_in_pool { c with conn := t.conn } t.draw hpool
    have hloop : c.hopLoop [t]
        = (if (Client.hop { c with conn := t.conn } t.draw).panicked then
            ((Client.hop { c with conn := t.conn } t.draw).client, LoopStatus.panicked)
          else if (Client.hop { c with conn := t.conn } t.draw).exit then
            ((Client.hop { c with conn := t.conn } t.draw).client, LoopStatus.returned)
          else ((Client.hop { c with conn := t.conn } t.draw).client, LoopStatus.waiting)) := rfl
    rw [hloop]
    by_cases hpan : (Client.hop { c with conn := t.conn } t.draw).panicked = true
    · rw [if_pos hpan]
      refine ⟨hp, hi, ha, List.getElem?_mem ha, ?_⟩
      intro hsafe
      have := hop_no_panic c t hpool (hsafe t (List.mem_cons_self _ _))
      rw [this] at hpan
      exact absurd hpan (by decide)
    · rw [if_neg hpan]
      by_cases hexit : (Client.hop { c with conn := t.conn } t.draw).exit = true
      · rw [if_pos hexit]
        exact ⟨hp, hi, ha, List.getElem?_mem ha, fun _ h => LoopStatus.noConfusion h⟩
      · rw [if_neg hexit]
        exact ⟨hp, hi, ha, List.getElem?_mem ha, fun _ h => LoopStatus.noConfusion h⟩
  | cons t2 rest ih =>
    intro c t hpool
    obtain ⟨hp, hi, ha⟩ := hop_in_pool { c with conn := t.conn } t.draw hpool
    have hloop : c.hopLoop (t :: t2 :: rest)
        = (if (Client.hop { c with conn := t.conn } t.draw).panicked then
            ((Client.hop { c with conn := t.conn } t.draw).client, LoopStatus.panicked)
          else if (Client.hop { c with conn := t.conn } t.draw).exit then
            ((Client.hop { c with conn := t.conn } t.draw).client, LoopStatus.returned)
          else (Client.hop { c with conn := t.conn } t.draw).client.hopLoop (t2 :: rest)) := rfl
    rw [hloop]
    by_cases hpan : (Client.hop { c with conn := t.conn } t.draw).panicked = true
    · rw [if_pos hpan]
      refine ⟨hp, hi, ha, List.getElem?_mem ha, ?_⟩
      intro hsafe
      have := hop_no_panic c t hpool (hsafe t (List.mem_cons_self _ _))
      rw [this] at hpan
      exact absurd hpan (by decide)
    · rw [if_neg hpan]
      by_cases hexit : (Client.hop { c with conn := t.conn } t.draw).exit = true
      · rw [if_pos hexit]
        exact ⟨hp, hi, ha, List.getElem?_mem ha, fun _ h => LoopStatus.noConfusion h⟩
      · rw [if_neg hexit]
        have hpool2 : (Client.hop { c with conn := t.conn } t.draw).client.serverAddrs ≠ [] := by
          rw [hp]; exact hpool
        obtain ⟨hp1, hi1, ha1, hm1, hs1⟩ :=
          ih (Client.hop { c with conn := t.conn } t.draw).client t2 hpool2
        have hpool3 : (Client.hop { c with conn := t.conn } t.draw).client.serverAddrs
            = c.serverAddrs := hp
        rw [hpool3] at hp1 hi1 ha1 hm1
        exact ⟨hp1, hi1, ha1, hm1,
          fun hsafe => hs1 (fun t3 ht3 => hsafe t3 (List.mem_cons_of_mem _ ht3))⟩

/-- C9, worked instances: a pool of three addresses; three ticks with an active session on
a hopping socket, and one tick with an active session on a socket wrapped by
NewSalamanderConn, where hop() panics. -/
theorem C9_hopLoop_addr_in_pool_witness :
    ((toyClient.hopLoop
          (⟨7, some freshConn⟩ :: [⟨12, some freshConn⟩, ⟨5, some freshConn⟩])).1.serverAddrs
        = toyClient.serverAddrs ∧
      (toyClient.hopLoop
          (⟨7, some freshConn⟩ :: [⟨12, some freshConn⟩, ⟨5, some freshConn⟩])).1.serverAddrIndex
        < toyClient.serverAddrs.length ∧
      toyClient.serverAddrs[(toyClient.hopLoop
          (⟨7, some freshConn⟩ :: [⟨12, some freshConn⟩, ⟨5, some freshConn⟩])).1.serverAddrIndex]?
        = some (toyClient.hopLoop
          (⟨7, some freshConn⟩ :: [⟨12, some freshConn⟩, ⟨5, some freshConn⟩])).1.serverAddr ∧
      (toyClient.hopLoop
          (⟨7, some freshConn⟩ :: [⟨12, some freshConn⟩, ⟨5, some freshConn⟩])).1.serverAddr
        ∈ toyClient.serverAddrs ∧
      ((∀ t2 ∈ (⟨7, some freshConn⟩ : Tick) :: [⟨12, some freshConn⟩, ⟨5, some freshConn⟩],
          t2.canHop = true) →
        (toyClient.hopLoop
          (⟨7, some freshConn⟩ :: [⟨12, some freshConn⟩, ⟨5, some freshConn⟩])).2
          ≠ LoopStatus.panicked)) ∧
    ((toyClient.hopLoop
          (⟨7, some { freshConn with rawConn := .salamander .bindHopping }⟩ :: [])).1.serverAddrs
        = toyClient.serverAddrs ∧
      (toyClient.hopLoop
          (⟨7, some { freshConn with rawConn := .salamander .bindHopping }⟩
            :: [])).1.serverAddrIndex
        < toyClient.serverAddrs.length ∧
      toyClient.serverAddrs[(toyClient.hopLoop
          (⟨7, some { freshConn with rawConn := .salamander .bindHopping }⟩
            :: [])).1.serverAddrIndex]?
        = some (toyClient.hopLoop
          (⟨7, some { freshConn with rawConn := .salamander .bindHopping }⟩
            :: [])).1.serverAddr ∧
      (toyClient.hopLoop
          (⟨7, some { freshConn with rawConn := .salamander .bindHopping }⟩ :: [])).1.serverAddr
        ∈ toyClient.serverAddrs ∧
      ((∀ t2 ∈ (⟨7, some { freshConn with rawConn := .salamander .bindHopping }⟩ : Tick) :: [],
          t2.canHop = true) →
        (toyClient.hopLoop
          (⟨7, some { freshConn with rawConn := .salamander .bindHopping }⟩ :: [])).2
          ≠ LoopStatus.panicked)) :=
  ⟨C9_hopLoop_addr_in_pool [⟨12, some freshConn⟩, ⟨5, some freshConn⟩] toyClient
    ⟨7, some freshConn⟩ (by decide),
   C9_hopLoop_addr_in_pool [] toyClient
    ⟨7, some { freshConn with rawConn := .salamander .bindHopping }⟩ (by decide)⟩

end Hysteria2
